import Mathlib

/-!
Verification of logr (a terminal log viewer written in Rust) against its
natural-language specification.

The development shallowly embeds the relevant parts of the source:

* `src/ui.rs`: the highlight engine (`highlight_line`, `slice_line_spans`,
  `parse_ansi_line` helpers, `pattern_color`).  A ratatui `Line` is modelled
  as its list of spans; a `Span` is a byte string (modelled as `List Char`,
  one element per byte) together with a `Style`.  A ratatui `Style` is
  modelled by its foreground colour (the only component `highlight_line`
  touches) plus an opaque `rest` field standing for all other style data.
  The output of `ansi_to_tui`'s decoding and of the `regex` crate's
  `find_iter` are external to the repository, so theorems quantify over an
  arbitrary decoded base line and over arbitrary per-pattern match lists,
  assuming only the guarantee the `regex` crate provides (match byte
  offsets lie within the haystack).

* `src/event.rs` / `src/lib.rs`: the key-event state machine
  (`handle_dialog_event`, `handle_main_event`, `max_start`,
  `build_pattern`).  Regex compilation (`RegexBuilder::build`) is external,
  so the event handlers are parameterised by an arbitrary compile function
  `buildRegex : List Char → Bool → Except (List Char) R` returning either a
  compiled matcher of abstract type `R` or an error message.
-/

set_option autoImplicit false

namespace Logr

/-- Colour values used by the UI; mirrors the ratatui `Color` variants the
source mentions. -/
inductive Color where
  | red
  | green
  | blue
  | yellow
  | magenta
  | cyan
  | lightRed
  | lightGreen
  | lightYellow
  | lightBlue
  | darkGray
  | white
  deriving DecidableEq, Repr

/-- The constant `PATTERN_COLORS` array of `src/ui.rs`. -/
def PATTERN_COLORS : List Color :=
  [.red, .green, .blue, .yellow, .magenta, .cyan,
   .lightRed, .lightGreen, .lightYellow, .lightBlue]

/-- `pattern_color` of `src/ui.rs`: `PATTERN_COLORS[index % PATTERN_COLORS.len()]`.
The `getD` default is never reached since `index % 10 < 10`. -/
def pattern_color (index : Nat) : Color :=
  PATTERN_COLORS.getD (index % PATTERN_COLORS.length) .red

/-- A ratatui `Style`, modelled by the foreground colour plus an opaque
`rest` field standing for every other style component (background,
modifiers, ...), none of which `highlight_line` touches. -/
structure Style where
  fg : Option Color
  rest : Nat
  deriving DecidableEq, Repr

/-- `Style::fg` of ratatui: replace the foreground colour, keep the rest. -/
def Style.withFg (s : Style) (c : Color) : Style :=
  { s with fg := some c }

/-- A ratatui `Span`: a content byte string (one list element per byte)
with a style. -/
structure Span where
  content : List Char
  style : Style
  deriving DecidableEq, Repr

/-- `line_plain_text` of `src/ui.rs`: concatenate the contents of the
spans of a line. -/
def line_plain_text : List Span → List Char
  | [] => []
  | s :: rest => s.content ++ line_plain_text rest

/-- A regex match as delivered by `Regex::find_iter`: a start byte offset
and an end byte offset into the haystack. -/
structure MatchSpan where
  start : Nat
  stop : Nat
  deriving DecidableEq, Repr

/-- A tagged range `(start, end, pattern_index, color)` as collected by
`highlight_line` in `src/ui.rs`. -/
structure TagRange where
  start : Nat
  stop : Nat
  idx : Nat
  color : Color
  deriving DecidableEq, Repr

/-- The range-collection loop of `highlight_line`: for each pattern (with
running `index`) push `(start, end, index, pattern_color index)` for every
match with `start < end`.  The per-pattern match lists stand for the
output of `regex.find_iter(&plain)`. -/
def collectRangesGo : List (List MatchSpan) → Nat → List TagRange
  | [], _ => []
  | ms :: rest, index =>
    ms.filterMap (fun m =>
      if m.start < m.stop then
        some ⟨m.start, m.stop, index, pattern_color index⟩
      else
        none)
      ++ collectRangesGo rest (index + 1)

/-- Ranges collected over all patterns, starting at pattern index 0. -/
def collectRanges (matchesPerPattern : List (List MatchSpan)) : List TagRange :=
  collectRangesGo matchesPerPattern 0

/-- The comparator of `ranges.sort_by(|a, b| a.0.cmp(&b.0).then_with(|| a.2.cmp(&b.2)))`:
order by start ascending, breaking ties by pattern index ascending. -/
def rangeLe (a b : TagRange) : Bool :=
  a.start < b.start || (a.start == b.start && a.idx ≤ b.idx)

/-- Insertion step of a stable sort by `rangeLe`. -/
def insertRange (r : TagRange) : List TagRange → List TagRange
  | [] => [r]
  | s :: rest => if rangeLe r s then r :: s :: rest else s :: insertRange r rest

/-- Stable insertion sort by `rangeLe`; models `Vec::sort_by`, which is a
stable sort, so its result is uniquely determined by the comparator and
the input order. -/
def sortRanges : List TagRange → List TagRange
  | [] => []
  | r :: rest => insertRange r (sortRanges rest)

/-- The recursion inside `slice_line_spans` of `src/ui.rs`: walk the spans
keeping a running byte `offset`, skip spans ending at or before `start`,
break at the first span starting at or after `stop`, and otherwise push
the clipped slice of the span with its style. -/
def sliceSpansGo : List Span → Nat → Nat → Nat → List Span
  | [], _, _, _ => []
  | span :: rest, offset, start, stop =>
    let len := span.content.length
    let spanStart := offset
    let spanEnd := offset + len
    if spanEnd ≤ start then
      sliceSpansGo rest (offset + len) start stop
    else if stop ≤ spanStart then
      []
    else
      let sliceStart := start - spanStart
      let sliceEnd := min (stop - spanStart) len
      (if sliceStart < sliceEnd then
        [⟨(span.content.drop sliceStart).take (sliceEnd - sliceStart), span.style⟩]
      else
        [])
        ++ sliceSpansGo rest (offset + len) start stop

/-- `slice_line_spans` of `src/ui.rs`: the sub-spans of `line` covering
byte interval `[start, stop)`, empty when `start >= stop`. -/
def slice_line_spans (line : List Span) (start stop : Nat) : List Span :=
  if stop ≤ start then [] else sliceSpansGo line 0 start stop

/-- The sweep loop of `highlight_line` plus its trailing
`if cursor < text_len` slice: process the sorted ranges left to right,
skipping ranges wholly before the cursor, clipping a range's start up to
the cursor, emitting the uncoloured gap and then the recoloured slice,
and finally emitting the tail of the line. -/
def sweepRanges (base : List Span) (textLen : Nat) :
    List TagRange → Nat → List Span
  | [], cursor =>
    if cursor < textLen then slice_line_spans base cursor textLen else []
  | r :: rest, cursor =>
    if r.stop ≤ cursor then
      sweepRanges base textLen rest cursor
    else
      let start := if r.start < cursor then cursor else r.start
      (if cursor < start then slice_line_spans base cursor start else [])
        ++ (slice_line_spans base start r.stop).map
            (fun s => ⟨s.content, s.style.withFg r.color⟩)
        ++ sweepRanges base textLen rest r.stop

/-- `highlight_line` of `src/ui.rs`.  The ANSI-decoded base line (the
result of `parse_ansi_line`) is passed in as `base`; the result of
`regex.find_iter(&plain)` for each pattern is passed in as
`matchesPerPattern`.  The line-level style and alignment are copied
verbatim by the source, so a line is modelled as its span list. -/
def highlight_line (base : List Span) (matchesPerPattern : List (List MatchSpan)) :
    List Span :=
  let ranges := collectRanges matchesPerPattern
  if ranges.isEmpty then
    base
  else
    sweepRanges base (line_plain_text base).length (sortRanges ranges) 0

/-- Observation: each byte of a span list paired with the style of the
span it belongs to, in order. -/
def spanAnnots : List Span → List (Char × Style)
  | [] => []
  | s :: rest => s.content.map (fun c => (c, s.style)) ++ spanAnnots rest

/-- Observation: the foreground colour of each byte of a span list, in
order. -/
def byteColors (spans : List Span) : List (Option Color) :=
  (spanAnnots spans).map (fun a => a.2.fg)

/-- A `PatternSpec` of `src/lib.rs`: the pattern text, its case
sensitivity, and the compiled matcher (of abstract type `R`, since the
`regex` crate's `Regex` is external to the repository). -/
structure PatternSpec (R : Type) where
  pattern : List Char
  case_sensitive : Bool
  regex : R
  deriving DecidableEq, Repr

/-- The `AppState` struct of `src/lib.rs`. -/
structure AppState (R : Type) where
  patterns : List (PatternSpec R)
  selected : Nat
  dialog_open : Bool
  input : List Char
  pattern_error : Option (List Char)
  ignore_case : Bool
  scroll : Nat
  follow : Bool
  wrap : Bool
  deriving DecidableEq, Repr

/-- `EventResult` of `src/event.rs`. -/
structure EventResult where
  exit : Bool
  redraw : Bool
  deriving DecidableEq, Repr

/-- The key codes of `crossterm` that the handlers match on; `other`
stands for every remaining variant, all of which hit the catch-all arm. -/
inductive KeyCode where
  | esc
  | enter
  | up
  | down
  | left
  | right
  | delete
  | backspace
  | home
  | endKey
  | pageUp
  | pageDown
  | char (c : Char)
  | other
  deriving DecidableEq, Repr

/-- The two `crossterm` key modifiers the handlers inspect. -/
structure KeyModifiers where
  control : Bool
  shift : Bool
  deriving DecidableEq, Repr

/-- `max_start` of `src/lib.rs`: `if view_height == 0 { 0 } else { total_lines.saturating_sub(view_height) }`.
`Nat` subtraction is saturating, matching `usize::saturating_sub`. -/
def max_start (total_lines view_height : Nat) : Nat :=
  if view_height = 0 then 0 else total_lines - view_height

/-- `build_pattern` of `src/lib.rs`, parameterised by the external regex
compiler `buildRegex` (which models `build_regex`, i.e.
`RegexBuilder::new(pattern).case_insensitive(!case_sensitive).build()`). -/
def build_pattern {R : Type} (buildRegex : List Char → Bool → Except (List Char) R)
    (pattern : List Char) (case_sensitive : Bool) :
    Except (List Char) (PatternSpec R) :=
  match buildRegex pattern case_sensitive with
  | .ok regex => .ok ⟨pattern, case_sensitive, regex⟩
  | .error e => .error e

/-- The error message `format!("Invalid pattern: {err}")`. -/
def invalidPatternMsg (err : List Char) : List Char :=
  "Invalid pattern: ".toList ++ err

/-- `str::trim` of Rust, modelled on byte strings: strip leading and
trailing whitespace. -/
def trimChars (s : List Char) : List Char :=
  ((s.dropWhile Char.isWhitespace).reverse.dropWhile Char.isWhitespace).reverse

/-- The `Left | Right` arm of `handle_dialog_event`: recompile the
selected pattern's text with the flipped case sensitivity; on success
update `case_sensitive` and `regex` in place, on failure set the error. -/
def dialogToggleCase {R : Type} (buildRegex : List Char → Bool → Except (List Char) R)
    (app : AppState R) : AppState R :=
  if h : app.selected < app.patterns.length then
    let p := app.patterns[app.selected]
    let case_sensitive := !p.case_sensitive
    match buildRegex p.pattern case_sensitive with
    | .ok regex =>
      { app with
          patterns := app.patterns.set app.selected
            { p with case_sensitive := case_sensitive, regex := regex } }
    | .error err =>
      { app with pattern_error := some (invalidPatternMsg err) }
  else
    app

/-- `handle_dialog_event` of `src/event.rs`.  The source mutates `app`
and returns `Ok(Option<EventResult>)` (it never returns `Err`), modelled
here as the updated state paired with the optional result.  Guarded match
arms are translated with their fall-through behaviour: a `Char` key first
checks the `Char('c')` + CONTROL arm, then the generic `Char(c)` arm. -/
def handle_dialog_event {R : Type} (buildRegex : List Char → Bool → Except (List Char) R)
    (app : AppState R) (code : KeyCode) (modifiers : KeyModifiers) (redraw : Bool) :
    AppState R × Option EventResult :=
  match code with
  | .esc =>
    ({ app with dialog_open := false, input := [], pattern_error := none }, none)
  | .enter =>
    if (trimChars app.input).isEmpty then
      ({ app with dialog_open := false, pattern_error := none }, none)
    else
      match build_pattern buildRegex app.input (!app.ignore_case) with
      | .ok pattern =>
        ({ app with
            patterns := app.patterns ++ [pattern],
            dialog_open := false,
            input := [],
            pattern_error := none }, none)
      | .error err =>
        ({ app with pattern_error := some (invalidPatternMsg err) }, none)
  | .up =>
    if app.selected > 0 then
      ({ app with selected := app.selected - 1 }, none)
    else
      (app, none)
  | .down =>
    if app.selected < app.patterns.length then
      ({ app with selected := app.selected + 1 }, none)
    else
      (app, none)
  | .left =>
    (dialogToggleCase buildRegex app, none)
  | .right =>
    (dialogToggleCase buildRegex app, none)
  | .delete =>
    if app.selected < app.patterns.length then
      let patterns := app.patterns.eraseIdx app.selected
      let selected :=
        if app.selected > patterns.length then patterns.length else app.selected
      let selected := if patterns.isEmpty then 0 else selected
      ({ app with patterns := patterns, selected := selected }, none)
    else
      (app, none)
  | .backspace =>
    ({ app with input := app.input.dropLast, selected := app.patterns.length }, none)
  | .char c =>
    if c = 'c' && modifiers.control then
      (app, some ⟨true, redraw⟩)
    else if !modifiers.control then
      ({ app with input := app.input ++ [c], selected := app.patterns.length }, none)
    else
      (app, none)
  | _ => (app, none)

/-- The `Up | Char('k')` arm of `handle_main_event`. -/
def mainScrollUp {R : Type} (app : AppState R) (total_lines view_height : Nat) :
    AppState R :=
  if total_lines > 0 then
    let ms := max_start total_lines view_height
    let app := if app.follow then { app with follow := false, scroll := ms } else app
    if app.scroll > 0 then { app with scroll := app.scroll - 1 } else app
  else
    app

/-- The `Down | Char('j')` arm of `handle_main_event`. -/
def mainScrollDown {R : Type} (app : AppState R) (total_lines view_height : Nat) :
    AppState R :=
  if total_lines > 0 then
    let ms := max_start total_lines view_height
    let app := if app.follow then { app with scroll := ms } else app
    if app.scroll < ms then { app with scroll := app.scroll + 1 }
    else { app with follow := true }
  else
    app

/-- The `PageUp | Char('u')` (with CONTROL) arm of `handle_main_event`;
`saturating_sub` is `Nat` subtraction. -/
def mainPageUp {R : Type} (app : AppState R) (total_lines view_height : Nat) :
    AppState R :=
  if total_lines > 0 then
    let ms := max_start total_lines view_height
    let delta := max 1 (view_height / 2)
    let app := if app.follow then { app with follow := false, scroll := ms } else app
    { app with scroll := app.scroll - delta }
  else
    app

/-- The `PageDown | Char('d')` (with CONTROL) arm of `handle_main_event`. -/
def mainPageDown {R : Type} (app : AppState R) (total_lines view_height : Nat) :
    AppState R :=
  if total_lines > 0 then
    let ms := max_start total_lines view_height
    let delta := max 1 (view_height / 2)
    let app := if app.follow then { app with scroll := ms } else app
    let app := { app with scroll := min (app.scroll + delta) ms }
    if app.scroll = ms then { app with follow := true } else app
  else
    app

/-- `handle_main_event` of `src/event.rs`, with the same modelling
conventions as `handle_dialog_event`.  Match-arm guards (`CONTROL` on
page up/down, `!SHIFT` on home) fall through to the catch-all arm, which
leaves the state unchanged. -/
def handle_main_event {R : Type} (app : AppState R)
    (total_lines view_height : Nat) (code : KeyCode) (modifiers : KeyModifiers)
    (redraw : Bool) : AppState R × Option EventResult :=
  match code with
  | .char 'q' => (app, some ⟨true, redraw⟩)
  | .char 'p' =>
    ({ app with
        dialog_open := true,
        input := [],
        pattern_error := none,
        selected := 0 }, none)
  | .char 'w' => ({ app with wrap := !app.wrap }, none)
  | .char 'c' =>
    if modifiers.control then (app, some ⟨true, redraw⟩) else (app, none)
  | .up => (mainScrollUp app total_lines view_height, none)
  | .char 'k' => (mainScrollUp app total_lines view_height, none)
  | .down => (mainScrollDown app total_lines view_height, none)
  | .char 'j' => (mainScrollDown app total_lines view_height, none)
  | .pageUp =>
    if modifiers.control then (mainPageUp app total_lines view_height, none)
    else (app, none)
  | .char 'u' =>
    if modifiers.control then (mainPageUp app total_lines view_height, none)
    else (app, none)
  | .pageDown =>
    if modifiers.control then (mainPageDown app total_lines view_height, none)
    else (app, none)
  | .char 'd' =>
    if modifiers.control then (mainPageDown app total_lines view_height, none)
    else (app, none)
  | .home =>
    if !modifiers.shift then ({ app with follow := false, scroll := 0 }, none)
    else (app, none)
  | .char 'g' =>
    if !modifiers.shift then ({ app with follow := false, scroll := 0 }, none)
    else (app, none)
  | .endKey =>
    ({ app with
        follow := true,
        scroll := max_start total_lines view_height }, none)
  | .char 'G' =>
    ({ app with
        follow := true,
        scroll := max_start total_lines view_height }, none)
  | _ => (app, none)

/-! ### Lemmas about the highlight engine -/

theorem spanAnnots_append (a b : List Span) :
    spanAnnots (a ++ b) = spanAnnots a ++ spanAnnots b := by
  induction a with
  | nil => simp [spanAnnots]
  | cons s rest ih => simp [spanAnnots, ih]

theorem map_fst_pair {A B : Type} (l : List A) (b : B) :
    (l.map (fun a => (a, b))).map Prod.fst = l := by
  induction l with
  | nil => rfl
  | cons x xs ih => simp [ih]

theorem line_plain_text_eq_map (l : List Span) :
    line_plain_text l = (spanAnnots l).map Prod.fst := by
  induction l with
  | nil => simp [line_plain_text, spanAnnots]
  | cons s rest ih =>
    simp only [line_plain_text, spanAnnots, List.map_append]
    rw [ih, map_fst_pair]

theorem length_spanAnnots (l : List Span) :
    (spanAnnots l).length = (line_plain_text l).length := by
  rw [line_plain_text_eq_map, List.length_map]

theorem line_plain_text_append (a b : List Span) :
    line_plain_text (a ++ b) = line_plain_text a ++ line_plain_text b := by
  simp [line_plain_text_eq_map, spanAnnots_append]

theorem spanAnnots_map_withFg (l : List Span) (c : Color) :
    spanAnnots (l.map (fun s => ⟨s.content, s.style.withFg c⟩))
      = (spanAnnots l).map (fun a => (a.1, a.2.withFg c)) := by
  induction l with
  | nil => simp [spanAnnots]
  | cons s rest ih =>
    simp [spanAnnots, ih, List.map_map]

theorem line_plain_text_map_withFg (l : List Span) (c : Color) :
    line_plain_text (l.map (fun s => ⟨s.content, s.style.withFg c⟩))
      = line_plain_text l := by
  simp [line_plain_text_eq_map, spanAnnots_map_withFg, List.map_map]

theorem drop_take_append_drop {α : Type} (P : List α) (a b : Nat) (hab : a ≤ b) :
    (P.drop a).take (b - a) ++ P.drop b = P.drop a := by
  conv_rhs => rw [← List.take_append_drop (b - a) (P.drop a)]
  congr 1
  rw [List.drop_drop]
  congr 1
  omega

theorem spanAnnots_sliceSpansGo (base : List Span) :
    ∀ (o s e : Nat),
      spanAnnots (sliceSpansGo base o s e)
        = ((spanAnnots base).drop (s - o)).take (e - max s o) := by
  induction base with
  | nil =>
    intro o s e
    simp [sliceSpansGo, spanAnnots]
  | cons sp rest ih =>
    intro o s e
    rw [sliceSpansGo]
    by_cases h1 : o + sp.content.length ≤ s
    · rw [if_pos h1, ih]
      have hsplit : s - o
          = (sp.content.map (fun c => (c, sp.style))).length + (s - (o + sp.content.length)) := by
        rw [List.length_map]; omega
      rw [spanAnnots, hsplit, List.drop_append]
      have hmax1 : max s o = s := by omega
      have hmax2 : max s (o + sp.content.length) = s := by omega
      rw [hmax1, hmax2]
    · rw [if_neg h1]
      by_cases h2 : e ≤ o
      · rw [if_pos h2]
        have h0 : e - max s o = 0 := by omega
        simp [spanAnnots, h0]
      · rw [if_neg h2]
        rw [spanAnnots_append, ih, spanAnnots]
        rw [List.drop_append_eq_append_drop, List.take_append_eq_append_take]
        have hlenA : (sp.content.map (fun c => (c, sp.style))).length
            = sp.content.length := List.length_map _ _
        have hdroprec : s - o - (sp.content.map (fun c => (c, sp.style))).length = 0 := by
          rw [hlenA]; omega
        have hdroprec2 : s - (o + sp.content.length) = 0 := by omega
        rw [hdroprec, hdroprec2]
        simp only [List.drop_zero]
        congr 1
        · by_cases h3 : s - o < min (e - o) sp.content.length
          · rw [if_pos h3]
            simp only [spanAnnots, List.append_nil, List.map_take, List.map_drop]
            rw [List.take_eq_take]
            simp only [List.length_take, List.length_drop, hlenA]
            omega
          · rw [if_neg h3]
            simp only [spanAnnots]
            symm
            rcases Nat.lt_or_ge s e with hse | hse
            · have hlen0 : sp.content.length = 0 := by omega
              have hnil : sp.content = [] := List.length_eq_zero.mp hlen0
              simp [hnil]
            · have h0 : e - max s o = 0 := by omega
              simp [h0]
        · rw [List.take_eq_take]
          simp only [List.length_drop, List.length_take, hlenA]
          omega

theorem spanAnnots_slice_line_spans (base : List Span) (s e : Nat) :
    spanAnnots (slice_line_spans base s e)
      = ((spanAnnots base).drop s).take (e - s) := by
  rw [slice_line_spans]
  by_cases h : e ≤ s
  · rw [if_pos h]
    have h0 : e - s = 0 := by omega
    simp [spanAnnots, h0]
  · rw [if_neg h, spanAnnots_sliceSpansGo]
    have hmax : max s 0 = s := by omega
    simp [hmax]

theorem line_plain_text_slice (base : List Span) (s e : Nat) :
    line_plain_text (slice_line_spans base s e)
      = ((line_plain_text base).drop s).take (e - s) := by
  rw [line_plain_text_eq_map, spanAnnots_slice_line_spans,
    line_plain_text_eq_map, List.map_take, List.map_drop]

theorem line_plain_text_sweepRanges (base : List Span) (ranges : List TagRange) :
    ∀ cursor : Nat,
      (∀ r ∈ ranges, r.start < r.stop ∧ r.stop ≤ (line_plain_text base).length) →
      line_plain_text (sweepRanges base (line_plain_text base).length ranges cursor)
        = (line_plain_text base).drop cursor := by
  induction ranges with
  | nil =>
    intro cursor _
    rw [sweepRanges]
    by_cases h : cursor < (line_plain_text base).length
    · rw [if_pos h, line_plain_text_slice]
      apply List.take_of_length_le
      simp
    · rw [if_neg h]
      symm
      apply List.drop_eq_nil_of_le
      omega
  | cons r rest ih =>
    intro cursor hb
    have hr := hb r (List.mem_cons_self r rest)
    have hrest : ∀ x ∈ rest, x.start < x.stop ∧ x.stop ≤ (line_plain_text base).length :=
      fun x hx => hb x (List.mem_cons_of_mem r hx)
    rw [sweepRanges]
    by_cases h1 : r.stop ≤ cursor
    · rw [if_pos h1, ih cursor hrest]
    · rw [if_neg h1]
      have hcs : cursor ≤ if r.start < cursor then cursor else r.start := by
        split <;> omega
      have hse : (if r.start < cursor then cursor else r.start) ≤ r.stop := by
        split <;> omega
      rw [line_plain_text_append, line_plain_text_append, ih r.stop hrest,
        line_plain_text_map_withFg, line_plain_text_slice]
      have hgap : line_plain_text
          (if cursor < (if r.start < cursor then cursor else r.start) then
            slice_line_spans base cursor (if r.start < cursor then cursor else r.start)
          else [])
          = ((line_plain_text base).drop cursor).take
              ((if r.start < cursor then cursor else r.start) - cursor) := by
        by_cases hg : cursor < (if r.start < cursor then cursor else r.start)
        · rw [if_pos hg, line_plain_text_slice]
        · rw [if_neg hg]
          have h0 : (if r.start < cursor then cursor else r.start) - cursor = 0 := by
            omega
          simp [line_plain_text, h0]
      rw [hgap, List.append_assoc, drop_take_append_drop _ _ _ hse,
        drop_take_append_drop _ _ _ hcs]

theorem mem_insertRange (x r : TagRange) (l : List TagRange) :
    x ∈ insertRange r l → x = r ∨ x ∈ l := by
  induction l with
  | nil =>
    intro h
    rw [insertRange, List.mem_singleton] at h
    exact Or.inl h
  | cons s rest ih =>
    intro h
    rw [insertRange] at h
    by_cases hc : rangeLe r s
    · rw [if_pos hc, List.mem_cons] at h
      exact h
    · rw [if_neg hc, List.mem_cons] at h
      rcases h with h | h
      · exact Or.inr (by rw [h]; exact List.mem_cons_self s rest)
      · rcases ih h with h2 | h2
        · exact Or.inl h2
        · exact Or.inr (List.mem_cons_of_mem s h2)

theorem mem_sortRanges (x : TagRange) (l : List TagRange) :
    x ∈ sortRanges l → x ∈ l := by
  induction l with
  | nil => intro h; simp [sortRanges] at h
  | cons r rest ih =>
    intro h
    rw [sortRanges] at h
    rcases mem_insertRange x r (sortRanges rest) h with h2 | h2
    · simp [h2]
    · exact List.mem_cons_of_mem r (ih h2)

theorem mem_collectRangesGo (mpp : List (List MatchSpan)) :
    ∀ (i : Nat) (r : TagRange), r ∈ collectRangesGo mpp i →
      ∃ ms ∈ mpp, ∃ m ∈ ms, m.start < m.stop ∧ r.start = m.start ∧ r.stop = m.stop := by
  induction mpp with
  | nil => intro i r h; simp [collectRangesGo] at h
  | cons ms rest ih =>
    intro i r h
    rw [collectRangesGo, List.mem_append] at h
    rcases h with h | h
    · rw [List.mem_filterMap] at h
      rcases h with ⟨m, hm, hfm⟩
      by_cases hlt : m.start < m.stop
      · rw [if_pos hlt] at hfm
        refine ⟨ms, List.mem_cons_self ms rest, m, hm, hlt, ?_, ?_⟩
        · rw [← Option.some_inj.mp hfm]
        · rw [← Option.some_inj.mp hfm]
      · rw [if_neg hlt] at hfm
        exact absurd hfm (by simp)
    · rcases ih (i + 1) r h with ⟨ms2, hms2, m, hm, hlt, hs, he⟩
      exact ⟨ms2, List.mem_cons_of_mem ms hms2, m, hm, hlt, hs, he⟩

theorem collectRangesGo_eq_nil (mpp : List (List MatchSpan))
    (h : ∀ ms ∈ mpp, ∀ m ∈ ms, ¬ m.start < m.stop) :
    ∀ i : Nat, collectRangesGo mpp i = [] := by
  induction mpp with
  | nil => intro i; rfl
  | cons ms rest ih =>
    intro i
    rw [collectRangesGo]
    rw [List.filterMap_eq_nil_iff.mpr, List.nil_append]
    · exact ih (fun x hx => h x (List.mem_cons_of_mem ms hx)) (i + 1)
    · intro m hm
      rw [if_neg (h ms (List.mem_cons_self ms rest) m hm)]

/-! ### Claim C1 -/

/-- C1: for every ANSI-decoded base line and every per-pattern match list
whose match end offsets lie within the plain text (the guarantee the
`regex` crate's `find_iter` provides for matches of the plain text), the
concatenation of the contents of the spans produced by `highlight_line`
equals the plain text of the line (the concatenation of the base span
contents).  Since every output byte is produced exactly once and in
order, the produced spans cut the byte interval `[0, plain.length)` into
consecutive pieces: a partition with no gaps and no overlaps. -/
theorem highlight_line_plain_text_partition
    (base : List Span) (mpp : List (List MatchSpan))
    (hms : ∀ ms ∈ mpp, ∀ m ∈ ms, m.stop ≤ (line_plain_text base).length) :
    line_plain_text (highlight_line base mpp) = line_plain_text base := by
  simp only [highlight_line]
  by_cases hemp : (collectRanges mpp).isEmpty
  · rw [if_pos hemp]
  · rw [if_neg hemp]
    rw [line_plain_text_sweepRanges base _ 0, List.drop_zero]
    intro r hr
    rcases mem_collectRangesGo mpp 0 r (mem_sortRanges r _ hr) with
      ⟨ms, hmsmem, m, hm, hlt, hs, he⟩
    constructor
    · rw [hs, he]; exact hlt
    · rw [he]; exact hms ms hmsmem m hm

/-- Witness for C1: a concrete line and a concrete in-bounds match list. -/
theorem highlight_line_plain_text_partition_witness :
    (∀ ms ∈ [[MatchSpan.mk 1 3]], ∀ m ∈ ms,
        m.stop ≤ (line_plain_text [⟨['h','e','l','l','o'], ⟨none, 0⟩⟩]).length)
    ∧ line_plain_text
        (highlight_line [⟨['h','e','l','l','o'], ⟨none, 0⟩⟩] [[MatchSpan.mk 1 3]])
      = line_plain_text [⟨['h','e','l','l','o'], ⟨none, 0⟩⟩] :=
  ⟨by decide, highlight_line_plain_text_partition _ _ (by decide)⟩

/-! ### Claim C10 -/

/-- C10: if the pattern list is empty, or no pattern has a non-empty
match in the plain text, `highlight_line` returns the ANSI-decoded base
line exactly as decoded: every span's content and style, including its
foreground colour, is unchanged. -/
theorem highlight_line_no_match_id (base : List Span) (mpp : List (List MatchSpan))
    (h : ∀ ms ∈ mpp, ∀ m ∈ ms, ¬ m.start < m.stop) :
    highlight_line base mpp = base := by
  simp only [highlight_line, collectRanges]
  rw [collectRangesGo_eq_nil mpp h 0]
  rfl

/-- Witness for C10: a styled concrete line, one degenerate (empty-width)
match and one pattern without matches. -/
theorem highlight_line_no_match_id_witness :
    (∀ ms ∈ [[MatchSpan.mk 2 2], ([] : List MatchSpan)], ∀ m ∈ ms, ¬ m.start < m.stop)
    ∧ highlight_line [⟨['a', 'b'], ⟨some .white, 3⟩⟩] [[MatchSpan.mk 2 2], []]
      = [⟨['a', 'b'], ⟨some .white, 3⟩⟩] :=
  ⟨by decide, highlight_line_no_match_id _ _ (by decide)⟩

/-! ### Claim C2 -/

theorem byteColors_append (a b : List Span) :
    byteColors (a ++ b) = byteColors a ++ byteColors b := by
  simp [byteColors, spanAnnots_append]

theorem length_byteColors (l : List Span) :
    (byteColors l).length = (line_plain_text l).length := by
  rw [byteColors, List.length_map, length_spanAnnots]

theorem byteColors_slice (base : List Span) (s e : Nat) :
    byteColors (slice_line_spans base s e)
      = ((byteColors base).drop s).take (e - s) := by
  rw [byteColors, spanAnnots_slice_line_spans, byteColors, List.map_take, List.map_drop]

theorem byteColors_recolor_slice (base : List Span) (s e : Nat) (c : Color) :
    byteColors ((slice_line_spans base s e).map (fun sp => ⟨sp.content, sp.style.withFg c⟩))
      = List.replicate (min (e - s) ((line_plain_text base).length - s)) (some c) := by
  rw [byteColors, spanAnnots_map_withFg, List.map_map]
  have hc : ((fun (a : Char × Style) => a.2.fg) ∘ fun (a : Char × Style) => (a.1, a.2.withFg c))
      = fun _ => some c := by
    funext a
    rfl
  rw [hc, List.map_const']
  congr 1
  rw [spanAnnots_slice_line_spans]
  simp [length_spanAnnots]

theorem sweepRanges_cons_active (base : List Span) (textLen a b i : Nat)
    (c : Color) (rest : List TagRange) (cursor : Nat) (h : ¬ b ≤ cursor) :
    sweepRanges base textLen (⟨a, b, i, c⟩ :: rest) cursor
      = (if cursor < (if a < cursor then cursor else a) then
          slice_line_spans base cursor (if a < cursor then cursor else a)
        else [])
        ++ (slice_line_spans base (if a < cursor then cursor else a) b).map
            (fun s => ⟨s.content, s.style.withFg c⟩)
        ++ sweepRanges base textLen rest b := by
  rw [sweepRanges, if_neg (show ¬ (⟨a, b, i, c⟩ : TagRange).stop ≤ cursor from h)]

/-- C2 counterexample: on the plain line `"aaaa"`, pattern 0 matches bytes
`[1, 3)` and pattern 1 matches bytes `[0, 4)` (a higher-index match that
starts strictly earlier and extends further).  The claim says the overlap
bytes `[1, 3)` receive pattern 0's colour; the code colours every byte,
including the overlap, with pattern 1's colour, because the sweep orders
ranges by start first and the earlier-starting range claims its bytes. -/
theorem highlight_line_earlier_start_beats_lower_index :
    byteColors (highlight_line [⟨['a', 'a', 'a', 'a'], ⟨none, 0⟩⟩]
        [[MatchSpan.mk 1 3], [MatchSpan.mk 0 4]])
      = List.replicate 4 (some (pattern_color 1))
    ∧ pattern_color 1 ≠ pattern_color 0 := by
  decide

/-- C2 (amended): when matches of two patterns start at the same byte,
the lower pattern index (earlier-registered) wins: with pattern 0
matching `[s, e0)` and pattern 1 matching `[s, e1)`, `s < e0 < e1 ≤ len`,
the bytes `[s, e0)` receive pattern 0's colour, and the later range is
clipped to `[e0, e1)` — a byte once claimed by the sweep is never
re-claimed by a later range — while the bytes outside `[s, e1)` keep
their decoded colours. -/
theorem highlight_line_equal_start_lower_index_wins
    (base : List Span) (s e0 e1 : Nat)
    (h0 : s < e0) (h01 : e0 < e1) (h1 : e1 ≤ (line_plain_text base).length) :
    byteColors (highlight_line base [[MatchSpan.mk s e0], [MatchSpan.mk s e1]])
      = (byteColors base).take s
        ++ List.replicate (e0 - s) (some (pattern_color 0))
        ++ List.replicate (e1 - e0) (some (pattern_color 1))
        ++ (byteColors base).drop e1 := by
  have hB : (byteColors base).length = (line_plain_text base).length :=
    length_byteColors base
  have hcoll : collectRanges [[MatchSpan.mk s e0], [MatchSpan.mk s e1]]
      = [⟨s, e0, 0, pattern_color 0⟩, ⟨s, e1, 1, pattern_color 1⟩] := by
    simp [collectRanges, collectRangesGo, h0, Nat.lt_trans h0 h01]
  have hle : rangeLe ⟨s, e0, 0, pattern_color 0⟩ ⟨s, e1, 1, pattern_color 1⟩ = true := by
    simp [rangeLe]
  have hsort : sortRanges [⟨s, e0, 0, pattern_color 0⟩, ⟨s, e1, 1, pattern_color 1⟩]
      = [⟨s, e0, 0, pattern_color 0⟩, ⟨s, e1, 1, pattern_color 1⟩] := by
    rw [sortRanges, sortRanges, sortRanges, insertRange, insertRange, if_pos hle]
  simp only [highlight_line]
  rw [hcoll]
  rw [if_neg (by simp)]
  rw [hsort]
  rw [sweepRanges_cons_active _ _ _ _ _ _ _ _ (show ¬ (e0 ≤ 0) by omega)]
  rw [sweepRanges_cons_active _ _ _ _ _ _ _ _ (show ¬ (e1 ≤ e0) by omega)]
  rw [sweepRanges]
  have hstart0 : (if s < 0 then 0 else s) = s := if_neg (Nat.not_lt_zero s)
  have hstart1 : (if s < e0 then e0 else s) = e0 := if_pos h0
  rw [hstart0, hstart1]
  rw [if_neg (show ¬ (e0 < e0) by omega)]
  simp only [List.nil_append, byteColors_append]
  have hpiece1 : byteColors (if 0 < s then slice_line_spans base 0 s else [])
      = (byteColors base).take s := by
    by_cases hs : 0 < s
    · rw [if_pos hs, byteColors_slice, List.drop_zero, Nat.sub_zero]
    · rw [if_neg hs]
      have hs0 : s = 0 := by omega
      simp [byteColors, spanAnnots, hs0]
  have hpiece2 : byteColors ((slice_line_spans base s e0).map
        (fun sp => ⟨sp.content, sp.style.withFg (pattern_color 0)⟩))
      = List.replicate (e0 - s) (some (pattern_color 0)) := by
    rw [byteColors_recolor_slice]
    congr 1
    omega
  have hpiece3 : byteColors ((slice_line_spans base e0 e1).map
        (fun sp => ⟨sp.content, sp.style.withFg (pattern_color 1)⟩))
      = List.replicate (e1 - e0) (some (pattern_color 1)) := by
    rw [byteColors_recolor_slice]
    congr 1
    omega
  have hpiece4 : byteColors
        (if e1 < (line_plain_text base).length then
          slice_line_spans base e1 (line_plain_text base).length
        else [])
      = (byteColors base).drop e1 := by
    by_cases he : e1 < (line_plain_text base).length
    · rw [if_pos he, byteColors_slice]
      apply List.take_of_length_le
      simp only [List.length_drop, hB]
      exact Nat.le.refl
    · rw [if_neg he]
      symm
      apply List.drop_eq_nil_of_le
      omega
  rw [hpiece1, hpiece2, hpiece3, hpiece4]
  simp only [List.append_assoc]

/-- Witness for C2 (amended): the spec's own example — patterns `"aa"` and
`"aaa"` on `"baaab"`, whose matches are `[1, 3)` and `[1, 4)`. -/
theorem highlight_line_equal_start_lower_index_wins_witness :
    ((1:Nat) < 3 ∧ (3:Nat) < 4
      ∧ 4 ≤ (line_plain_text [⟨['b', 'a', 'a', 'a', 'b'], ⟨none, 0⟩⟩]).length)
    ∧ byteColors (highlight_line [⟨['b', 'a', 'a', 'a', 'b'], ⟨none, 0⟩⟩]
          [[MatchSpan.mk 1 3], [MatchSpan.mk 1 4]])
      = (byteColors [⟨['b', 'a', 'a', 'a', 'b'], ⟨none, 0⟩⟩]).take 1
        ++ List.replicate 2 (some (pattern_color 0))
        ++ List.replicate 1 (some (pattern_color 1))
        ++ (byteColors [⟨['b', 'a', 'a', 'a', 'b'], ⟨none, 0⟩⟩]).drop 4 :=
  ⟨⟨by decide, by decide, by decide⟩,
    highlight_line_equal_start_lower_index_wins _ 1 3 4 (by decide) (by decide) (by decide)⟩

/-! ### Concrete material for witnesses and counterexamples -/

/-- A concrete regex compiler that always succeeds (the compiled matcher
is represented by the number 7). -/
def okRegex : List Char → Bool → Except (List Char) Nat :=
  fun _ _ => .ok 7

/-- A concrete regex compiler that always fails. -/
def errRegex : List Char → Bool → Except (List Char) Nat :=
  fun _ _ => .error ['x']

/-- A concrete app state over matcher type `Nat` for witnesses. -/
def mkApp (patterns : List (PatternSpec Nat)) (selected : Nat)
    (dialog_open : Bool) (input : List Char) (scroll : Nat) (follow : Bool) :
    AppState Nat :=
  { patterns := patterns
    selected := selected
    dialog_open := dialog_open
    input := input
    pattern_error := none
    ignore_case := false
    scroll := scroll
    follow := follow
    wrap := false }

/-! Unfolding equations for `handle_main_event` at the scroll keys (plain
`rfl` facts, stated to avoid unfolding the full key-code match). -/

theorem handle_main_event_up_eq {R : Type} (app : AppState R) (t vh : Nat)
    (m : KeyModifiers) (redraw : Bool) :
    handle_main_event app t vh .up m redraw = (mainScrollUp app t vh, none) := rfl

theorem handle_main_event_down_eq {R : Type} (app : AppState R) (t vh : Nat)
    (m : KeyModifiers) (redraw : Bool) :
    handle_main_event app t vh .down m redraw = (mainScrollDown app t vh, none) := rfl

theorem handle_main_event_pageUp_eq {R : Type} (app : AppState R) (t vh : Nat)
    (m : KeyModifiers) (redraw : Bool) :
    handle_main_event app t vh .pageUp m redraw
      = if m.control then (mainPageUp app t vh, none) else (app, none) := rfl

theorem handle_main_event_pageDown_eq {R : Type} (app : AppState R) (t vh : Nat)
    (m : KeyModifiers) (redraw : Bool) :
    handle_main_event app t vh .pageDown m redraw
      = if m.control then (mainPageDown app t vh, none) else (app, none) := rfl

theorem handle_main_event_home_eq {R : Type} (app : AppState R) (t vh : Nat)
    (m : KeyModifiers) (redraw : Bool) :
    handle_main_event app t vh .home m redraw
      = if !m.shift then ({ app with follow := false, scroll := 0 }, none)
        else (app, none) := rfl

theorem handle_main_event_endKey_eq {R : Type} (app : AppState R) (t vh : Nat)
    (m : KeyModifiers) (redraw : Bool) :
    handle_main_event app t vh .endKey m redraw
      = ({ app with follow := true, scroll := max_start t vh }, none) := rfl

/-! ### Claim C3 -/

/-- C3 counterexample: with `total = 0` the jump-to-top operation (Home)
is not a no-op: starting from `follow = true, scroll = 5` it sets
`follow := false` and `scroll := 0`, because the Home/End arms are not
guarded by `total_lines > 0`. -/
theorem handle_main_event_total_zero_home_counterexample :
    (handle_main_event (mkApp [] 0 false [] 5 true) 0 10 .home ⟨false, false⟩ true).1.follow
        = false
    ∧ (mkApp [] 0 false [] 5 true).follow = true
    ∧ (handle_main_event (mkApp [] 0 false [] 5 true) 0 10 .home ⟨false, false⟩ true).1.scroll
        = 0
    ∧ (mkApp [] 0 false [] 5 true).scroll = 5 := by
  decide

/-- C3 (amended): when the total line count is 0, the line up, line down,
page up and page down operations leave the whole state (in particular
scroll and follow) unchanged; jump-to-top (Home, shift not held) sets
`follow := false, scroll := 0`, and jump-to-bottom (End) sets
`follow := true, scroll := 0` (which is `max_start 0 h`), regardless of
the total. -/
theorem handle_main_event_total_zero {R : Type} (app : AppState R) (vh : Nat)
    (m : KeyModifiers) (redraw : Bool) (hm : m.shift = false) :
    (handle_main_event app 0 vh .up m redraw).1 = app
    ∧ (handle_main_event app 0 vh .down m redraw).1 = app
    ∧ (handle_main_event app 0 vh .pageUp m redraw).1 = app
    ∧ (handle_main_event app 0 vh .pageDown m redraw).1 = app
    ∧ (handle_main_event app 0 vh .home m redraw).1
        = { app with follow := false, scroll := 0 }
    ∧ (handle_main_event app 0 vh .endKey m redraw).1
        = { app with follow := true, scroll := 0 } := by
  refine ⟨?_, ?_, ?_, ?_, ?_, ?_⟩
  · rw [handle_main_event_up_eq]
    simp [mainScrollUp]
  · rw [handle_main_event_down_eq]
    simp [mainScrollDown]
  · rw [handle_main_event_pageUp_eq]
    split
    · simp [mainPageUp]
    · rfl
  · rw [handle_main_event_pageDown_eq]
    split
    · simp [mainPageDown]
    · rfl
  · rw [handle_main_event_home_eq]
    simp [hm]
  · rw [handle_main_event_endKey_eq]
    simp [max_start]

/-- Witness for C3 (amended) at a concrete state. -/
theorem handle_main_event_total_zero_witness :
    (⟨false, false⟩ : KeyModifiers).shift = false
    ∧ (handle_main_event (mkApp [] 0 false [] 3 true) 0 4 .up ⟨false, false⟩ true).1
        = mkApp [] 0 false [] 3 true :=
  ⟨rfl, (handle_main_event_total_zero (mkApp [] 0 false [] 3 true) 4
    ⟨false, false⟩ true rfl).1⟩

/-! ### Claim C7 -/

/-- C7: starting from `follow = true` with `total > 0`, a single up-key
press sets `follow := false` and sets
`scroll = max_start(total, height).saturating_sub(1)`. -/
theorem handle_main_event_up_disengages_follow {R : Type} (app : AppState R)
    (total vh : Nat) (m : KeyModifiers) (redraw : Bool)
    (hf : app.follow = true) (ht : 0 < total) :
    (handle_main_event app total vh .up m redraw).1.follow = false
    ∧ (handle_main_event app total vh .up m redraw).1.scroll
        = max_start total vh - 1 := by
  refine ⟨?_, ?_⟩ <;>
    rw [handle_main_event_up_eq] <;>
    simp only [mainScrollUp, if_pos ht, hf, if_true] <;>
    split <;>
    simp_all

/-- Witness for C7: total 5, height 1, so max_start = 4 and one up press
lands on scroll 3. -/
theorem handle_main_event_up_disengages_follow_witness :
    ((mkApp [] 0 false [] 0 true).follow = true ∧ (0:Nat) < 5)
    ∧ ((handle_main_event (mkApp [] 0 false [] 0 true) 5 1 .up ⟨false, false⟩ true).1.follow
          = false
      ∧ (handle_main_event (mkApp [] 0 false [] 0 true) 5 1 .up ⟨false, false⟩ true).1.scroll
          = max_start 5 1 - 1) :=
  ⟨⟨rfl, by decide⟩, handle_main_event_up_disengages_follow
    (mkApp [] 0 false [] 0 true) 5 1 ⟨false, false⟩ true rfl (by decide)⟩

/-! ### Claim C8 -/

/-- C8 counterexample: with total = 5, height = 1 (so max_start = 4),
`follow = true` and `scroll = 0`, a down press does not increment scroll
by one — the code first snaps scroll to max_start, so scroll becomes 4. -/
theorem handle_main_event_down_follow_counterexample :
    (handle_main_event (mkApp [] 0 false [] 0 true) 5 1 .down ⟨false, false⟩ true).1.scroll
        = 4
    ∧ max_start 5 1 = 4
    ∧ (mkApp [] 0 false [] 0 true).scroll = 0
    ∧ (handle_main_event (mkApp [] 0 false [] 0 true) 5 1 .down ⟨false, false⟩ true).1.scroll
        ≠ (mkApp [] 0 false [] 0 true).scroll + 1 := by
  decide

/-- C8 (amended): with `total > 0` and `follow = false`, a down-key press
increments scroll by one when `scroll < max_start`, and otherwise leaves
scroll unchanged and re-engages follow; with `follow = true`, a down-key
press sets scroll to max_start and keeps follow engaged, so any further
down press leaves scroll unchanged with follow still true. -/
theorem handle_main_event_down_behavior {R : Type} (app : AppState R)
    (total vh : Nat) (m : KeyModifiers) (redraw : Bool) (ht : 0 < total) :
    (app.follow = false → app.scroll < max_start total vh →
      (handle_main_event app total vh .down m redraw).1.scroll = app.scroll + 1
      ∧ (handle_main_event app total vh .down m redraw).1.follow = false)
    ∧ (app.follow = false → max_start total vh ≤ app.scroll →
      (handle_main_event app total vh .down m redraw).1.scroll = app.scroll
      ∧ (handle_main_event app total vh .down m redraw).1.follow = true)
    ∧ (app.follow = true →
      (handle_main_event app total vh .down m redraw).1.scroll = max_start total vh
      ∧ (handle_main_event app total vh .down m redraw).1.follow = true) := by
  refine ⟨fun hf hs => ?_, fun hf hs => ?_, fun hf => ?_⟩ <;>
    rw [handle_main_event_down_eq] <;>
    simp only [mainScrollDown, if_pos ht, hf, if_true, Bool.false_eq_true,
      if_false] <;>
    constructor <;>
    split <;>
    simp_all <;>
    omega

/-- Witness for C8 (amended): follow = false, scroll = 1, max_start = 4. -/
theorem handle_main_event_down_behavior_witness :
    ((0:Nat) < 5
      ∧ (mkApp [] 0 false [] 1 false).follow = false
      ∧ (mkApp [] 0 false [] 1 false).scroll < max_start 5 1)
    ∧ ((handle_main_event (mkApp [] 0 false [] 1 false) 5 1 .down ⟨false, false⟩ true).1.scroll
          = (mkApp [] 0 false [] 1 false).scroll + 1
      ∧ (handle_main_event (mkApp [] 0 false [] 1 false) 5 1 .down ⟨false, false⟩ true).1.follow
          = false) :=
  ⟨⟨by decide, rfl, by decide⟩,
    (handle_main_event_down_behavior (mkApp [] 0 false [] 1 false) 5 1
      ⟨false, false⟩ true (by decide)).1 rfl (by decide)⟩

/-! ### Claim C4 -/

theorem build_pattern_ok {R : Type} (b : List Char → Bool → Except (List Char) R)
    (p : List Char) (cs : Bool) (r : R) (h : b p cs = .ok r) :
    build_pattern b p cs = .ok ⟨p, cs, r⟩ := by
  rw [build_pattern, h]

theorem build_pattern_error {R : Type} (b : List Char → Bool → Except (List Char) R)
    (p : List Char) (cs : Bool) (e : List Char) (h : b p cs = .error e) :
    build_pattern b p cs = .error e := by
  rw [build_pattern, h]

/-- C4: in the open dialog, Enter with input non-blank after trimming
attempts to compile the input with `case_sensitive = !ignore_case`; on
success the new pattern (with exactly that text, case flag and matcher)
is appended at the end, the dialog closes and the input is cleared; on
failure the error message is set, the dialog stays open, the input is
retained and the pattern list is unchanged. -/
theorem handle_dialog_enter_add {R : Type}
    (buildRegex : List Char → Bool → Except (List Char) R) (app : AppState R)
    (m : KeyModifiers) (redraw : Bool)
    (hopen : app.dialog_open = true)
    (hnb : (trimChars app.input).isEmpty = false) :
    (∀ r, buildRegex app.input (!app.ignore_case) = .ok r →
      (handle_dialog_event buildRegex app .enter m redraw).1.patterns
          = app.patterns ++ [⟨app.input, !app.ignore_case, r⟩]
      ∧ (handle_dialog_event buildRegex app .enter m redraw).1.dialog_open = false
      ∧ (handle_dialog_event buildRegex app .enter m redraw).1.input = []
      ∧ (handle_dialog_event buildRegex app .enter m redraw).1.pattern_error = none)
    ∧ (∀ e, buildRegex app.input (!app.ignore_case) = .error e →
      (handle_dialog_event buildRegex app .enter m redraw).1.pattern_error
          = some (invalidPatternMsg e)
      ∧ (handle_dialog_event buildRegex app .enter m redraw).1.dialog_open = true
      ∧ (handle_dialog_event buildRegex app .enter m redraw).1.input = app.input
      ∧ (handle_dialog_event buildRegex app .enter m redraw).1.patterns
          = app.patterns) := by
  have hcond : ¬ ((trimChars app.input).isEmpty = true) := by
    rw [hnb]; exact Bool.false_ne_true
  constructor
  · intro r hok
    simp only [handle_dialog_event, if_neg hcond, build_pattern_ok _ _ _ _ hok]
    exact ⟨trivial, trivial, trivial, trivial⟩
  · intro e herr
    simp only [handle_dialog_event, if_neg hcond, build_pattern_error _ _ _ _ herr]
    exact ⟨trivial, hopen, trivial, trivial⟩

/-- Witness for C4 at a concrete open dialog with input `"ab"`, for both a
succeeding and a failing compiler. -/
theorem handle_dialog_enter_add_witness :
    ((mkApp [] 0 true ['a', 'b'] 0 true).dialog_open = true
      ∧ (trimChars (mkApp [] 0 true ['a', 'b'] 0 true).input).isEmpty = false)
    ∧ ((handle_dialog_event okRegex (mkApp [] 0 true ['a', 'b'] 0 true) .enter
            ⟨false, false⟩ true).1.patterns
          = (mkApp [] 0 true ['a', 'b'] 0 true).patterns ++ [⟨['a', 'b'], true, 7⟩]
      ∧ (handle_dialog_event okRegex (mkApp [] 0 true ['a', 'b'] 0 true) .enter
            ⟨false, false⟩ true).1.dialog_open = false
      ∧ (handle_dialog_event okRegex (mkApp [] 0 true ['a', 'b'] 0 true) .enter
            ⟨false, false⟩ true).1.input = []
      ∧ (handle_dialog_event okRegex (mkApp [] 0 true ['a', 'b'] 0 true) .enter
            ⟨false, false⟩ true).1.pattern_error = none)
    ∧ ((handle_dialog_event errRegex (mkApp [] 0 true ['a', 'b'] 0 true) .enter
            ⟨false, false⟩ true).1.pattern_error
          = some (invalidPatternMsg ['x'])
      ∧ (handle_dialog_event errRegex (mkApp [] 0 true ['a', 'b'] 0 true) .enter
            ⟨false, false⟩ true).1.dialog_open = true
      ∧ (handle_dialog_event errRegex (mkApp [] 0 true ['a', 'b'] 0 true) .enter
            ⟨false, false⟩ true).1.input = (mkApp [] 0 true ['a', 'b'] 0 true).input
      ∧ (handle_dialog_event errRegex (mkApp [] 0 true ['a', 'b'] 0 true) .enter
            ⟨false, false⟩ true).1.patterns
          = (mkApp [] 0 true ['a', 'b'] 0 true).patterns) :=
  ⟨⟨rfl, by decide⟩,
    (handle_dialog_enter_add okRegex (mkApp [] 0 true ['a', 'b'] 0 true)
      ⟨false, false⟩ true rfl (by decide)).1 7 rfl,
    (handle_dialog_enter_add errRegex (mkApp [] 0 true ['a', 'b'] 0 true)
      ⟨false, false⟩ true rfl (by decide)).2 ['x'] rfl⟩

/-! ### Claim C5 -/

/-- C5: with the selection on an existing pattern (selected strictly below
the list length), the case-toggle operation (Left in the dialog; Right is
identical) recompiles the same pattern text with the flipped case
sensitivity.  On success the entry is replaced by one with the same text,
the flipped flag and the new matcher (all other entries unchanged); on
failure the pattern list — hence the entry's text, flag and matcher — is
left unchanged and the error message is surfaced. -/
theorem handle_dialog_case_toggle {R : Type}
    (buildRegex : List Char → Bool → Except (List Char) R) (app : AppState R)
    (m : KeyModifiers) (redraw : Bool)
    (h : app.selected < app.patterns.length) :
    (∀ r, buildRegex (app.patterns[app.selected].pattern)
        (!app.patterns[app.selected].case_sensitive) = .ok r →
      (handle_dialog_event buildRegex app .left m redraw).1.patterns
          = app.patterns.set app.selected
              ⟨app.patterns[app.selected].pattern,
                !app.patterns[app.selected].case_sensitive, r⟩
      ∧ (handle_dialog_event buildRegex app .left m redraw).1.pattern_error
          = app.pattern_error)
    ∧ (∀ e, buildRegex (app.patterns[app.selected].pattern)
        (!app.patterns[app.selected].case_sensitive) = .error e →
      (handle_dialog_event buildRegex app .left m redraw).1.patterns
          = app.patterns
      ∧ (handle_dialog_event buildRegex app .left m redraw).1.pattern_error
          = some (invalidPatternMsg e))
    ∧ handle_dialog_event buildRegex app .right m redraw
        = handle_dialog_event buildRegex app .left m redraw := by
  refine ⟨?_, ?_, rfl⟩
  · intro r hok
    show ((dialogToggleCase buildRegex app).patterns = _)
      ∧ ((dialogToggleCase buildRegex app).pattern_error = _)
    rw [dialogToggleCase, dif_pos h]
    simp only [hok]
    exact ⟨trivial, trivial⟩
  · intro e herr
    show ((dialogToggleCase buildRegex app).patterns = _)
      ∧ ((dialogToggleCase buildRegex app).pattern_error = _)
    rw [dialogToggleCase, dif_pos h]
    simp only [herr]
    exact ⟨trivial, trivial⟩

/-- Witness for C5: a two-pattern list with selection 0, for both a
succeeding and a failing recompiler. -/
theorem handle_dialog_case_toggle_witness :
    ((mkApp [⟨['f'], true, 1⟩, ⟨['g'], true, 2⟩] 0 true [] 0 true).selected
        < (mkApp [⟨['f'], true, 1⟩, ⟨['g'], true, 2⟩] 0 true [] 0 true).patterns.length)
    ∧ ((handle_dialog_event okRegex
            (mkApp [⟨['f'], true, 1⟩, ⟨['g'], true, 2⟩] 0 true [] 0 true) .left
            ⟨false, false⟩ true).1.patterns
          = [⟨['f'], false, 7⟩, ⟨['g'], true, 2⟩]
      ∧ (handle_dialog_event okRegex
            (mkApp [⟨['f'], true, 1⟩, ⟨['g'], true, 2⟩] 0 true [] 0 true) .left
            ⟨false, false⟩ true).1.pattern_error = none)
    ∧ ((handle_dialog_event errRegex
            (mkApp [⟨['f'], true, 1⟩, ⟨['g'], true, 2⟩] 0 true [] 0 true) .left
            ⟨false, false⟩ true).1.patterns
          = [⟨['f'], true, 1⟩, ⟨['g'], true, 2⟩]
      ∧ (handle_dialog_event errRegex
            (mkApp [⟨['f'], true, 1⟩, ⟨['g'], true, 2⟩] 0 true [] 0 true) .left
            ⟨false, false⟩ true).1.pattern_error
          = some (invalidPatternMsg ['x'])) :=
  ⟨by decide,
    (handle_dialog_case_toggle okRegex
      (mkApp [⟨['f'], true, 1⟩, ⟨['g'], true, 2⟩] 0 true [] 0 true)
      ⟨false, false⟩ true (by decide)).1 7 rfl,
    (handle_dialog_case_toggle errRegex
      (mkApp [⟨['f'], true, 1⟩, ⟨['g'], true, 2⟩] 0 true [] 0 true)
      ⟨false, false⟩ true (by decide)).2.1 ['x'] rfl⟩

/-! ### Claim C9 -/

/-- C9 counterexample: Enter with a whitespace-only (blank after trim,
non-empty) input closes the dialog but does not clear the input buffer:
from input `" "` the dialog closes with the input still `" "`. -/
theorem handle_dialog_blank_enter_keeps_input :
    (handle_dialog_event okRegex (mkApp [] 0 true [' '] 0 true) .enter
        ⟨false, false⟩ true).1.dialog_open = false
    ∧ (handle_dialog_event okRegex (mkApp [] 0 true [' '] 0 true) .enter
        ⟨false, false⟩ true).1.input = [' ']
    ∧ [' '] ≠ ([] : List Char) := by
  decide

/-- C9 (amended): every transition that closes the dialog clears the
error; Escape and a successful non-blank Enter also clear the input,
while Enter with input blank after trimming closes the dialog and clears
the error but retains the (whitespace-only) input, which is cleared only
on the next dialog open. -/
theorem handle_dialog_close_resets {R : Type}
    (buildRegex : List Char → Bool → Except (List Char) R) (app : AppState R)
    (m : KeyModifiers) (redraw : Bool) :
    ((handle_dialog_event buildRegex app .esc m redraw).1.dialog_open = false
      ∧ (handle_dialog_event buildRegex app .esc m redraw).1.input = []
      ∧ (handle_dialog_event buildRegex app .esc m redraw).1.pattern_error = none)
    ∧ ((trimChars app.input).isEmpty = true →
      (handle_dialog_event buildRegex app .enter m redraw).1.dialog_open = false
      ∧ (handle_dialog_event buildRegex app .enter m redraw).1.pattern_error = none
      ∧ (handle_dialog_event buildRegex app .enter m redraw).1.input = app.input)
    ∧ (∀ r, (trimChars app.input).isEmpty = false →
      buildRegex app.input (!app.ignore_case) = .ok r →
      (handle_dialog_event buildRegex app .enter m redraw).1.dialog_open = false
      ∧ (handle_dialog_event buildRegex app .enter m redraw).1.input = []
      ∧ (handle_dialog_event buildRegex app .enter m redraw).1.pattern_error
          = none) := by
  refine ⟨⟨rfl, rfl, rfl⟩, fun hb => ?_, fun r hnb hok => ?_⟩
  · simp only [handle_dialog_event, if_pos hb]
    exact ⟨trivial, trivial, trivial⟩
  · have hcond : ¬ ((trimChars app.input).isEmpty = true) := by
      rw [hnb]; exact Bool.false_ne_true
    simp only [handle_dialog_event, if_neg hcond, build_pattern_ok _ _ _ _ hok]
    exact ⟨trivial, trivial, trivial⟩

/-- Witness for C9 (amended): blank-Enter case at input `" "` and
successful-Enter case at input `"a"`. -/
theorem handle_dialog_close_resets_witness :
    ((trimChars (mkApp [] 0 true [' '] 0 true).input).isEmpty = true
      ∧ ((handle_dialog_event okRegex (mkApp [] 0 true [' '] 0 true) .enter
            ⟨false, false⟩ true).1.dialog_open = false
        ∧ (handle_dialog_event okRegex (mkApp [] 0 true [' '] 0 true) .enter
            ⟨false, false⟩ true).1.pattern_error = none
        ∧ (handle_dialog_event okRegex (mkApp [] 0 true [' '] 0 true) .enter
            ⟨false, false⟩ true).1.input = (mkApp [] 0 true [' '] 0 true).input))
    ∧ ((trimChars (mkApp [] 0 true ['a'] 0 true).input).isEmpty = false
      ∧ ((handle_dialog_event okRegex (mkApp [] 0 true ['a'] 0 true) .enter
            ⟨false, false⟩ true).1.dialog_open = false
        ∧ (handle_dialog_event okRegex (mkApp [] 0 true ['a'] 0 true) .enter
            ⟨false, false⟩ true).1.input = []
        ∧ (handle_dialog_event okRegex (mkApp [] 0 true ['a'] 0 true) .enter
            ⟨false, false⟩ true).1.pattern_error = none)) :=
  ⟨⟨by decide,
      (handle_dialog_close_resets okRegex (mkApp [] 0 true [' '] 0 true)
        ⟨false, false⟩ true).2.1 (by decide)⟩,
    ⟨by decide,
      (handle_dialog_close_resets okRegex (mkApp [] 0 true ['a'] 0 true)
        ⟨false, false⟩ true).2.2 7 (by decide) rfl⟩⟩

/-! ### Claim C6 -/

theorem dialogToggleCase_selected_patterns {R : Type}
    (b : List Char → Bool → Except (List Char) R) (app : AppState R) :
    (dialogToggleCase b app).selected = app.selected
    ∧ (dialogToggleCase b app).patterns.length = app.patterns.length := by
  rw [dialogToggleCase]
  by_cases h : app.selected < app.patterns.length
  · rw [dif_pos h]
    rcases hcomp : b (app.patterns[app.selected].pattern)
        (!app.patterns[app.selected].case_sensitive) with e | r
    · simp [hcomp]
    · simp [hcomp]
  · rw [dif_neg h]
    exact ⟨rfl, rfl⟩

/-- C6: every dialog operation (selection up, selection down, case
toggle, delete, backspace, printable-character insert — indeed every key
code) keeps `selected` within `[0, patterns.len()]`: if
`selected ≤ patterns.length` before the operation, the same holds after
it.  Moreover deleting the last remaining pattern (length 1, selection on
it) empties the list and leaves `selected = 0`. -/
theorem handle_dialog_selected_bound {R : Type}
    (buildRegex : List Char → Bool → Except (List Char) R) (app : AppState R)
    (code : KeyCode) (m : KeyModifiers) (redraw : Bool)
    (h : app.selected ≤ app.patterns.length) :
    ((handle_dialog_event buildRegex app code m redraw).1.selected
        ≤ (handle_dialog_event buildRegex app code m redraw).1.patterns.length)
    ∧ (code = .delete → app.patterns.length = 1 → app.selected = 0 →
      (handle_dialog_event buildRegex app code m redraw).1.patterns = []
      ∧ (handle_dialog_event buildRegex app code m redraw).1.selected = 0) := by
  constructor
  · cases code with
    | esc => exact h
    | enter =>
      simp only [handle_dialog_event]
      by_cases hb : (trimChars app.input).isEmpty
      · rw [if_pos hb]; exact h
      · rw [if_neg hb]
        rcases hcomp : buildRegex app.input (!app.ignore_case) with e | r
        · rw [build_pattern_error _ _ _ _ hcomp]; exact h
        · rw [build_pattern_ok _ _ _ _ hcomp]
          simp only [List.length_append, List.length_cons, List.length_nil]
          omega
    | up =>
      simp only [handle_dialog_event]
      by_cases hs : app.selected > 0
      · rw [if_pos hs]; show app.selected - 1 ≤ app.patterns.length; omega
      · rw [if_neg hs]; exact h
    | down =>
      simp only [handle_dialog_event]
      by_cases hs : app.selected < app.patterns.length
      · rw [if_pos hs]; exact hs
      · rw [if_neg hs]; exact h
    | left =>
      show (dialogToggleCase buildRegex app).selected
        ≤ (dialogToggleCase buildRegex app).patterns.length
      rw [(dialogToggleCase_selected_patterns buildRegex app).1,
        (dialogToggleCase_selected_patterns buildRegex app).2]
      exact h
    | right =>
      show (dialogToggleCase buildRegex app).selected
        ≤ (dialogToggleCase buildRegex app).patterns.length
      rw [(dialogToggleCase_selected_patterns buildRegex app).1,
        (dialogToggleCase_selected_patterns buildRegex app).2]
      exact h
    | delete =>
      simp only [handle_dialog_event]
      by_cases hs : app.selected < app.patterns.length
      · rw [if_pos hs]
        have hlen : (app.patterns.eraseIdx app.selected).length
            = app.patterns.length - 1 := List.length_eraseIdx_of_lt hs
        show (if (app.patterns.eraseIdx app.selected).isEmpty then 0
            else if app.selected > (app.patterns.eraseIdx app.selected).length then
              (app.patterns.eraseIdx app.selected).length
            else app.selected)
          ≤ (app.patterns.eraseIdx app.selected).length
        split_ifs <;> omega
      · rw [if_neg hs]; exact h
    | backspace => exact Nat.le.refl
    | char c =>
      simp only [handle_dialog_event]
      by_cases h1 : c = 'c' && m.control
      · rw [if_pos h1]; exact h
      · rw [if_neg h1]
        by_cases h2 : !m.control
        · rw [if_pos h2]
        · rw [if_neg h2]; exact h
    | home => exact h
    | endKey => exact h
    | pageUp => exact h
    | pageDown => exact h
    | other => exact h
  · intro hcode h1 h0
    subst hcode
    have hs : app.selected < app.patterns.length := by omega
    simp only [handle_dialog_event, if_pos hs]
    have hP : app.patterns.eraseIdx app.selected = [] := by
      apply List.length_eq_zero.mp
      rw [List.length_eraseIdx_of_lt hs]
      omega
    constructor
    · show app.patterns.eraseIdx app.selected = []
      exact hP
    · show (if (app.patterns.eraseIdx app.selected).isEmpty then 0
          else if app.selected > (app.patterns.eraseIdx app.selected).length then
            (app.patterns.eraseIdx app.selected).length
          else app.selected) = 0
      rw [hP]
      rfl

/-- Witness for C6: deleting the only pattern from a one-pattern list with
the selection on it. -/
theorem handle_dialog_selected_bound_witness :
    ((mkApp [⟨['f'], true, 1⟩] 0 true [] 0 true).selected
        ≤ (mkApp [⟨['f'], true, 1⟩] 0 true [] 0 true).patterns.length)
    ∧ ((handle_dialog_event okRegex (mkApp [⟨['f'], true, 1⟩] 0 true [] 0 true)
            .delete ⟨false, false⟩ true).1.patterns = []
      ∧ (handle_dialog_event okRegex (mkApp [⟨['f'], true, 1⟩] 0 true [] 0 true)
            .delete ⟨false, false⟩ true).1.selected = 0) :=
  ⟨by decide,
    (handle_dialog_selected_bound okRegex (mkApp [⟨['f'], true, 1⟩] 0 true [] 0 true)
      .delete ⟨false, false⟩ true (by decide)).2 rfl (by decide) rfl⟩

end Logr
